import Mathlib

/-
Verification of the Jissen Mahjong controller USB converter firmware
(src/Jissen_MJ_USB_Controller.ino) against its natural-language
specification.

Shallow embedding:
- Pin levels are an enumerated type; the data line is modelled as a
  stream of levels indexed by the order of digitalRead calls inside one
  row-read invocation.
- Each row-read function (readAHrow, readINrow, readCommandRow) is
  translated line by line from the source: every digitalWrite appends a
  write event to the trace tr, every digitalRead samples the stream at
  the running read index k and appends a read event; the function
  returns the byte value and the GPIO trace.
- The loop body is translated as a state transition on the two global
  variables (lastPressedKey, isButtonPressed), emitting a list of
  keyboard-transport events (press, releaseAll) plus the bounce delay.
- Machine integers: tempData is a C int holding only values in [0,255];
  bitClear is modelled on 16-bit width; the byte return converts with
  % 256.
-/

namespace JMJ

/-- Logical level on a GPIO line. -/
inductive Level
  | LOW
  | HIGH
deriving DecidableEq, Fintype, Repr

/-- The five Arduino pins used by the firmware (nesData, nesClock,
nesLatch, nesAH, nesIN in the source). -/
inductive Pin
  | nesData
  | nesClock
  | nesLatch
  | nesAH
  | nesIN
deriving DecidableEq, Repr

/-- One GPIO event performed by a row-read function: a digitalWrite of a
level to a pin, or a digitalRead of the data line observing a level. -/
inductive Ev
  | write (p : Pin) (l : Level)
  | readData (l : Level)
deriving DecidableEq, Repr

/-- Arduino bitClear on the 16-bit int tempData: value &= ~(1 << bit). -/
def bitClear (x i : Nat) : Nat :=
  x &&& (65535 ^^^ (1 <<< i))

-- Button bit-position constants, copied from the source.
-- Buttons in commands row
def RON_BUTTON : Nat := 1

def RIICHI_BUTTON : Nat := 2

def CHI_BUTTON : Nat := 3

def PON_BUTTON : Nat := 4

def KAN_BUTTON : Nat := 5

def ST_BUTTON : Nat := 6

def SEL_BUTTON : Nat := 7

-- Buttons in I - N row
def N_BUTTON : Nat := 2

def M_BUTTON : Nat := 3

def L_BUTTON : Nat := 4

def K_BUTTON : Nat := 5

def J_BUTTON : Nat := 6

def I_BUTTON : Nat := 7

-- Buttons in A - H row
def H_BUTTON : Nat := 0

def G_BUTTON : Nat := 1

def F_BUTTON : Nat := 2

def E_BUTTON : Nat := 3

def D_BUTTON : Nat := 4

def C_BUTTON : Nat := 5

def B_BUTTON : Nat := 6

def A_BUTTON : Nat := 7

/-- Conditional bit clear: the if (digitalRead(nesData) == LOW)
bitClear(tempData, pos) statement pattern of the row-read functions. -/
def clearIf (v : Level) (x i : Nat) : Nat :=
  if v = Level.LOW then bitClear x i else x

/-- Translation of readAHrow: select the A-H row, pulse the latch, read
bit 0 immediately, then clock and read the remaining 7 bits. Returns the
byte value (tempData converted to byte) and the GPIO trace. -/
def readAHrow (d : Nat → Level) : Nat × List Ev :=
  let tempData := 255
  let k := 0
  let tr : List Ev := []
  let tr := tr ++ [Ev.write Pin.nesAH Level.LOW]
  let tr := tr ++ [Ev.write Pin.nesIN Level.HIGH]
  let tr := tr ++ [Ev.write Pin.nesLatch Level.HIGH]
  let tr := tr ++ [Ev.write Pin.nesLatch Level.LOW]
  let v := d k
  let tr := tr ++ [Ev.readData v]
  let k := k + 1
  let tempData := clearIf v tempData H_BUTTON
  let tr := tr ++ [Ev.write Pin.nesClock Level.HIGH]
  let tr := tr ++ [Ev.write Pin.nesClock Level.LOW]
  let v := d k
  let tr := tr ++ [Ev.readData v]
  let k := k + 1
  let tempData := clearIf v tempData G_BUTTON
  let tr := tr ++ [Ev.write Pin.nesClock Level.HIGH]
  let tr := tr ++ [Ev.write Pin.nesClock Level.LOW]
  let v := d k
  let tr := tr ++ [Ev.readData v]
  let k := k + 1
  let tempData := clearIf v tempData F_BUTTON
  let tr := tr ++ [Ev.write Pin.nesClock Level.HIGH]
  let tr := tr ++ [Ev.write Pin.nesClock Level.LOW]
  let v := d k
  let tr := tr ++ [Ev.readData v]
  let k := k + 1
  let tempData := clearIf v tempData E_BUTTON
  let tr := tr ++ [Ev.write Pin.nesClock Level.HIGH]
  let tr := tr ++ [Ev.write Pin.nesClock Level.LOW]
  let v := d k
  let tr := tr ++ [Ev.readData v]
  let k := k + 1
  let tempData := clearIf v tempData D_BUTTON
  let tr := tr ++ [Ev.write Pin.nesClock Level.HIGH]
  let tr := tr ++ [Ev.write Pin.nesClock Level.LOW]
  let v := d k
  let tr := tr ++ [Ev.readData v]
  let k := k + 1
  let tempData := clearIf v tempData C_BUTTON
  let tr := tr ++ [Ev.write Pin.nesClock Level.HIGH]
  let tr := tr ++ [Ev.write Pin.nesClock Level.LOW]
  let v := d k
  let tr := tr ++ [Ev.readData v]
  let k := k + 1
  let tempData := clearIf v tempData B_BUTTON
  let tr := tr ++ [Ev.write Pin.nesClock Level.HIGH]
  let tr := tr ++ [Ev.write Pin.nesClock Level.LOW]
  let v := d k
  let tr := tr ++ [Ev.readData v]
  let tempData := clearIf v tempData A_BUTTON
  (tempData % 256, tr)

/-- Translation of readINrow: select the I-N row, pulse the latch, skip
the first two (unused) bit positions with one extra clock pulse and no
read there, then clock and read bits 2..7. -/
def readINrow (d : Nat → Level) : Nat × List Ev :=
  let tempData := 255
  let k := 0
  let tr : List Ev := []
  let tr := tr ++ [Ev.write Pin.nesAH Level.HIGH]
  let tr := tr ++ [Ev.write Pin.nesIN Level.LOW]
  let tr := tr ++ [Ev.write Pin.nesLatch Level.HIGH]
  let tr := tr ++ [Ev.write Pin.nesLatch Level.LOW]
  let tr := tr ++ [Ev.write Pin.nesClock Level.HIGH]
  let tr := tr ++ [Ev.write Pin.nesClock Level.LOW]
  let tr := tr ++ [Ev.write Pin.nesClock Level.HIGH]
  let tr := tr ++ [Ev.write Pin.nesClock Level.LOW]
  let v := d k
  let tr := tr ++ [Ev.readData v]
  let k := k + 1
  let tempData := clearIf v tempData N_BUTTON
  let tr := tr ++ [Ev.write Pin.nesClock Level.HIGH]
  let tr := tr ++ [Ev.write Pin.nesClock Level.LOW]
  let v := d k
  let tr := tr ++ [Ev.readData v]
  let k := k + 1
  let tempData := clearIf v tempData M_BUTTON
  let tr := tr ++ [Ev.write Pin.nesClock Level.HIGH]
  let tr := tr ++ [Ev.write Pin.nesClock Level.LOW]
  let v := d k
  let tr := tr ++ [Ev.readData v]
  let k := k + 1
  let tempData := clearIf v tempData L_BUTTON
  let tr := tr ++ [Ev.write Pin.nesClock Level.HIGH]
  let tr := tr ++ [Ev.write Pin.nesClock Level.LOW]
  let v := d k
  let tr := tr ++ [Ev.readData v]
  let k := k + 1
  let tempData := clearIf v tempData K_BUTTON
  let tr := tr ++ [Ev.write Pin.nesClock Level.HIGH]
  let tr := tr ++ [Ev.write Pin.nesClock Level.LOW]
  let v := d k
  let tr := tr ++ [Ev.readData v]
  let k := k + 1
  let tempData := clearIf v tempData J_BUTTON
  let tr := tr ++ [Ev.write Pin.nesClock Level.HIGH]
  let tr := tr ++ [Ev.write Pin.nesClock Level.LOW]
  let v := d k
  let tr := tr ++ [Ev.readData v]
  let tempData := clearIf v tempData I_BUTTON
  (tempData % 256, tr)

/-- Translation of readCommandRow: select the command row, pulse the
latch, skip the first (unused) bit position, then clock and read bits
1..7. -/
def readCommandRow (d : Nat → Level) : Nat × List Ev :=
  let tempData := 255
  let k := 0
  let tr : List Ev := []
  let tr := tr ++ [Ev.write Pin.nesAH Level.HIGH]
  let tr := tr ++ [Ev.write Pin.nesIN Level.HIGH]
  let tr := tr ++ [Ev.write Pin.nesLatch Level.HIGH]
  let tr := tr ++ [Ev.write Pin.nesLatch Level.LOW]
  let tr := tr ++ [Ev.write Pin.nesClock Level.HIGH]
  let tr := tr ++ [Ev.write Pin.nesClock Level.LOW]
  let v := d k
  let tr := tr ++ [Ev.readData v]
  let k := k + 1
  let tempData := clearIf v tempData RON_BUTTON
  let tr := tr ++ [Ev.write Pin.nesClock Level.HIGH]
  let tr := tr ++ [Ev.write Pin.nesClock Level.LOW]
  let v := d k
  let tr := tr ++ [Ev.readData v]
  let k := k + 1
  let tempData := clearIf v tempData RIICHI_BUTTON
  let tr := tr ++ [Ev.write Pin.nesClock Level.HIGH]
  let tr := tr ++ [Ev.write Pin.nesClock Level.LOW]
  let v := d k
  let tr := tr ++ [Ev.readData v]
  let k := k + 1
  let tempData := clearIf v tempData CHI_BUTTON
  let tr := tr ++ [Ev.write Pin.nesClock Level.HIGH]
  let tr := tr ++ [Ev.write Pin.nesClock Level.LOW]
  let v := d k
  let tr := tr ++ [Ev.readData v]
  let k := k + 1
  let tempData := clearIf v tempData PON_BUTTON
  let tr := tr ++ [Ev.write Pin.nesClock Level.HIGH]
  let tr := tr ++ [Ev.write Pin.nesClock Level.LOW]
  let v := d k
  let tr := tr ++ [Ev.readData v]
  let k := k + 1
  let tempData := clearIf v tempData KAN_BUTTON
  let tr := tr ++ [Ev.write Pin.nesClock Level.HIGH]
  let tr := tr ++ [Ev.write Pin.nesClock Level.LOW]
  let v := d k
  let tr := tr ++ [Ev.readData v]
  let k := k + 1
  let tempData := clearIf v tempData ST_BUTTON
  let tr := tr ++ [Ev.write Pin.nesClock Level.HIGH]
  let tr := tr ++ [Ev.write Pin.nesClock Level.LOW]
  let v := d k
  let tr := tr ++ [Ev.readData v]
  let tempData := clearIf v tempData SEL_BUTTON
  (tempData % 256, tr)

/-- Value of readAHrow as a function of its eight data-line samples. -/
def ahv (b0 b1 b2 b3 b4 b5 b6 b7 : Level) : Nat :=
  let t := 255
  let t := clearIf b0 t H_BUTTON
  let t := clearIf b1 t G_BUTTON
  let t := clearIf b2 t F_BUTTON
  let t := clearIf b3 t E_BUTTON
  let t := clearIf b4 t D_BUTTON
  let t := clearIf b5 t C_BUTTON
  let t := clearIf b6 t B_BUTTON
  let t := clearIf b7 t A_BUTTON
  t % 256

/-- Value of readINrow as a function of its six data-line samples. -/
def inv6 (b0 b1 b2 b3 b4 b5 : Level) : Nat :=
  let t := 255
  let t := clearIf b0 t N_BUTTON
  let t := clearIf b1 t M_BUTTON
  let t := clearIf b2 t L_BUTTON
  let t := clearIf b3 t K_BUTTON
  let t := clearIf b4 t J_BUTTON
  let t := clearIf b5 t I_BUTTON
  t % 256

/-- Value of readCommandRow as a function of its seven data-line
samples. -/
def cmdv (b0 b1 b2 b3 b4 b5 b6 : Level) : Nat :=
  let t := 255
  let t := clearIf b0 t RON_BUTTON
  let t := clearIf b1 t RIICHI_BUTTON
  let t := clearIf b2 t CHI_BUTTON
  let t := clearIf b3 t PON_BUTTON
  let t := clearIf b4 t KAN_BUTTON
  let t := clearIf b5 t ST_BUTTON
  let t := clearIf b6 t SEL_BUTTON
  t % 256

-- Key code constants from the Arduino Keyboard library used by the
-- source: KEY_LEFT_CTRL = 0x80, KEY_LEFT_SHIFT = 0x81, KEY_LEFT_ALT = 0x82.
def KEY_LEFT_CTRL : Nat := 128

def KEY_LEFT_SHIFT : Nat := 129

def KEY_LEFT_ALT : Nat := 130

/-- One call into the keyboard transport or the bounce delay: the
observable actions of one loop iteration besides GPIO. -/
inductive KEv
  | press (key : Nat)
  | releaseAll
  | delay (ms : Nat)
deriving DecidableEq, Repr

/-- The two persistent globals of the firmware: lastPressedKey (a char,
0 when cleared) and isButtonPressed. -/
structure LoopState where
  lastPressedKey : Nat
  isButtonPressed : Bool
deriving DecidableEq, Repr

/-- Global variable initial values: lastPressedKey = 0x0,
isButtonPressed = false. -/
def initState : LoopState := ⟨0, false⟩

/-- Translation of keyboardButtonPress: set isButtonPressed, call
Keyboard.press, record the key in lastPressedKey. -/
def keyboardButtonPress (key : Nat) (r : LoopState × List KEv) :
    LoopState × List KEv :=
  (⟨key, true⟩, r.2 ++ [KEv.press key])

/-- One guarded press from the loop body: if the read bit is 0 the
button is pressed. -/
def condPress (cond : Bool) (key : Nat) (r : LoopState × List KEv) :
    LoopState × List KEv :=
  if cond then keyboardButtonPress key r else r

/-- Tail of the loop body: delay while some button is pressed, otherwise
release all keys once if lastPressedKey is set; isButtonPressed is
cleared for the next iteration. -/
def tailStep (r : LoopState × List KEv) : LoopState × List KEv :=
  if r.1.isButtonPressed then
    (⟨r.1.lastPressedKey, false⟩, r.2 ++ [KEv.delay 80])
  else
    if r.1.lastPressedKey ≠ 0 then
      (⟨0, false⟩, r.2 ++ [KEv.releaseAll])
    else
      (⟨r.1.lastPressedKey, false⟩, r.2)

/-- Translation of the loop body. Inputs are the three bytes returned by
readAHrow, readINrow, readCommandRow for this iteration; the key code
literals are the characters passed to keyboardButtonPress in the source
(h=104 .. a=97, n=110 .. i=105, z=122, space=32, 1=49, 5=53). -/
def loopCycle (ah inRow cmd : Nat) (s : LoopState) : LoopState × List KEv :=
  let r := (s, ([] : List KEv))
  let r := condPress (!ah.testBit H_BUTTON) 104 r
  let r := condPress (!ah.testBit G_BUTTON) 103 r
  let r := condPress (!ah.testBit F_BUTTON) 102 r
  let r := condPress (!ah.testBit E_BUTTON) 101 r
  let r := condPress (!ah.testBit D_BUTTON) 100 r
  let r := condPress (!ah.testBit C_BUTTON) 99 r
  let r := condPress (!ah.testBit B_BUTTON) 98 r
  let r := condPress (!ah.testBit A_BUTTON) 97 r
  let r := condPress (!inRow.testBit N_BUTTON) 110 r
  let r := condPress (!inRow.testBit M_BUTTON) 109 r
  let r := condPress (!inRow.testBit L_BUTTON) 108 r
  let r := condPress (!inRow.testBit K_BUTTON) 107 r
  let r := condPress (!inRow.testBit J_BUTTON) 106 r
  let r := condPress (!inRow.testBit I_BUTTON) 105 r
  let r := condPress (!cmd.testBit RON_BUTTON) 122 r
  let r := condPress (!cmd.testBit RIICHI_BUTTON) KEY_LEFT_SHIFT r
  let r := condPress (!cmd.testBit CHI_BUTTON) 32 r
  let r := condPress (!cmd.testBit PON_BUTTON) KEY_LEFT_ALT r
  let r := condPress (!cmd.testBit KAN_BUTTON) KEY_LEFT_CTRL r
  let r := condPress (!cmd.testBit ST_BUTTON) 49 r
  let r := condPress (!cmd.testBit SEL_BUTTON) 53 r
  tailStep r

/-- Translation of loop as a whole: read the three rows in order (A-H,
I-N, command), then run the loop body on the three returned bytes.
loopCycle is the body given the row reads' results. -/
def loop (d1 d2 d3 : Nat → Level) (s : LoopState) : LoopState × List KEv :=
  loopCycle (readAHrow d1).1 (readINrow d2).1 (readCommandRow d3).1 s

/-- Running the loop body over a list of per-cycle row-byte triples,
concatenating the emitted events. -/
def runCycles : List (Nat × Nat × Nat) → LoopState → LoopState × List KEv
  | [], s => (s, [])
  | x :: rest, s =>
    let r1 := loopCycle x.1 x.2.1 x.2.2 s
    let r2 := runCycles rest r1.1
    (r2.1, r1.2 ++ r2.2)

/-- The 21 logical buttons handled by the loop body. -/
inductive Button
  | A | B | C | D | E | F | G | H | I | J | K | L | M | N
  | RON | RIICHI | CHI | PON | KAN | ST | SEL
deriving DecidableEq, Fintype, Repr

/-- Bit position of each button, via the source constants. -/
def btnPos : Button → Nat
  | .A => A_BUTTON
  | .B => B_BUTTON
  | .C => C_BUTTON
  | .D => D_BUTTON
  | .E => E_BUTTON
  | .F => F_BUTTON
  | .G => G_BUTTON
  | .H => H_BUTTON
  | .I => I_BUTTON
  | .J => J_BUTTON
  | .K => K_BUTTON
  | .L => L_BUTTON
  | .M => M_BUTTON
  | .N => N_BUTTON
  | .RON => RON_BUTTON
  | .RIICHI => RIICHI_BUTTON
  | .CHI => CHI_BUTTON
  | .PON => PON_BUTTON
  | .KAN => KAN_BUTTON
  | .ST => ST_BUTTON
  | .SEL => SEL_BUTTON

/-- Key code passed to keyboardButtonPress for each button in the loop
body. -/
def keyChar : Button → Nat
  | .A => 97
  | .B => 98
  | .C => 99
  | .D => 100
  | .E => 101
  | .F => 102
  | .G => 103
  | .H => 104
  | .I => 105
  | .J => 106
  | .K => 107
  | .L => 108
  | .M => 109
  | .N => 110
  | .RON => 122
  | .RIICHI => KEY_LEFT_SHIFT
  | .CHI => 32
  | .PON => KEY_LEFT_ALT
  | .KAN => KEY_LEFT_CTRL
  | .ST => 49
  | .SEL => 53

/-- The three button rows. -/
inductive Row
  | AH | IN | CMD
deriving DecidableEq, Repr

/-- Row of each button. -/
def btnRow : Button → Row
  | .A | .B | .C | .D | .E | .F | .G | .H => .AH
  | .I | .J | .K | .L | .M | .N => .IN
  | _ => .CMD

/-- Row byte the loop body tests for a given row. -/
def byteFor : Row → Nat → Nat → Nat → Nat
  | .AH, a, _, _ => a
  | .IN, _, i, _ => i
  | .CMD, _, _, c => c

/-- True when the loop body reads the button as pressed (its bit is 0 in
the corresponding row byte). -/
def hit (a i c : Nat) (b : Button) : Bool :=
  !(byteFor (btnRow b) a i c).testBit (btnPos b)

/-- The order in which the loop body checks the A-H row buttons. -/
def ahOrder : List Button := [.H, .G, .F, .E, .D, .C, .B, .A]

/-- The order in which the loop body checks the I-N row buttons. -/
def inOrder : List Button := [.N, .M, .L, .K, .J, .I]

/-- The order in which the loop body checks the command row buttons. -/
def cmdOrder : List Button := [.RON, .RIICHI, .CHI, .PON, .KAN, .ST, .SEL]

/-- The order in which the loop body checks all 21 buttons. -/
def checkOrder : List Button := ahOrder ++ inOrder ++ cmdOrder

/-- Table form of the press section of the loop body. -/
def pressFold (a i c : Nat) : List Button → LoopState × List KEv → LoopState × List KEv
  | [], r => r
  | b :: rest, r => pressFold a i c rest (condPress (hit a i c b) (keyChar b) r)

/-- Table form of the whole loop body. -/
def loopCycleF (a i c : Nat) (s : LoopState) : LoopState × List KEv :=
  tailStep (pressFold a i c checkOrder (s, []))

/-- Buttons decoded as pressed from an A-H row byte, in check order. -/
def decodeAH (bits : Nat) : List Button :=
  ahOrder.filter (fun b => !bits.testBit (btnPos b))

/-- Buttons decoded as pressed from an I-N row byte, in check order. -/
def decodeIN (bits : Nat) : List Button :=
  inOrder.filter (fun b => !bits.testBit (btnPos b))

/-- Buttons decoded as pressed from a command row byte, in check
order. -/
def decodeCMD (bits : Nat) : List Button :=
  cmdOrder.filter (fun b => !bits.testBit (btnPos b))

/-- The snapshot of one polling cycle: all buttons the loop body reads
as pressed from the three row bytes, in check order. -/
def decodeAll (a i c : Nat) : List Button :=
  checkOrder.filter (hit a i c)

/-- Key codes of the press calls in an event list, in order. -/
def pressKeys (l : List KEv) : List Nat :=
  l.filterMap (fun e =>
    match e with
    | KEv.press k => some k
    | _ => none)

/-- Number of releaseAll calls in an event list. -/
def countRel (l : List KEv) : Nat :=
  l.count KEv.releaseAll

/-- digitalWrite calls of a GPIO trace, in order. -/
def writesOf (tr : List Ev) : List (Pin × Level) :=
  tr.filterMap (fun e =>
    match e with
    | Ev.write p l => some (p, l)
    | _ => none)

/-- Data-line samples of a GPIO trace, in order. -/
def readsOf (tr : List Ev) : List Level :=
  tr.filterMap (fun e =>
    match e with
    | Ev.readData l => some l
    | _ => none)

/-- Write pattern of n clock pulses (drive high then low, n times). -/
def clockPulses : Nat → List (Pin × Level)
  | 0 => []
  | n + 1 =>
    [(Pin.nesClock, Level.HIGH), (Pin.nesClock, Level.LOW)] ++ clockPulses n

/-- Common write skeleton of one row read: drive the two select lines,
pulse the latch, then 7 clock pulses. Only the select levels vary by
row. -/
def rowWrites (selAH selIN : Level) : List (Pin × Level) :=
  [(Pin.nesAH, selAH), (Pin.nesIN, selIN),
   (Pin.nesLatch, Level.HIGH), (Pin.nesLatch, Level.LOW)] ++ clockPulses 7

/-- Levels last written to each pin; none before the first digitalWrite
(the pinMode configuration in setup sets directions, not levels, and is
out of scope). -/
structure PinsState where
  dataL : Option Level
  clockL : Option Level
  latchL : Option Level
  ahL : Option Level
  inL : Option Level
deriving DecidableEq, Repr

/-- Pin levels before any digitalWrite. -/
def initPins : PinsState := ⟨none, none, none, none, none⟩

/-- Effect of one digitalWrite on the recorded pin levels. -/
def applyWrite (p : PinsState) : Pin × Level → PinsState
  | (Pin.nesData, l) => { p with dataL := some l }
  | (Pin.nesClock, l) => { p with clockL := some l }
  | (Pin.nesLatch, l) => { p with latchL := some l }
  | (Pin.nesAH, l) => { p with ahL := some l }
  | (Pin.nesIN, l) => { p with inL := some l }

/-- The forbidden selector combination: both select lines last written
LOW. okSel is true when the combination is not present. -/
def okSel (p : PinsState) : Bool :=
  !(p.ahL == some Level.LOW && p.inL == some Level.LOW)

/-- Checks okSel after every write of the list, starting from pin state
p. -/
def okTrace : PinsState → List (Pin × Level) → Bool
  | _, [] => true
  | p, w :: ws => okSel (applyWrite p w) && okTrace (applyWrite p w) ws

/-- digitalWrite calls performed by setup: clock LOW then latch LOW; the
select lines are not written during initialization. -/
def setupWrites : List (Pin × Level) :=
  [(Pin.nesClock, Level.LOW), (Pin.nesLatch, Level.LOW)]

/-- digitalWrite calls of one loop iteration: the three row reads in
source order; the rest of the loop body performs no digitalWrite. -/
def cycleWrites (d1 d2 d3 : Nat → Level) : List (Pin × Level) :=
  writesOf (readAHrow d1).2 ++ writesOf (readINrow d2).2 ++
    writesOf (readCommandRow d3).2

/-- All digitalWrite calls from setup through n loop iterations, with
arbitrary data-line samples in each iteration. -/
def progWrites (ds : Nat → (Nat → Level) × (Nat → Level) × (Nat → Level)) :
    Nat → List (Pin × Level)
  | 0 => setupWrites
  | n + 1 => progWrites ds n ++ cycleWrites (ds n).1 (ds n).2.1 (ds n).2.2

/-- Pin levels after setup. -/
def postSetupPins : PinsState :=
  ⟨none, some Level.LOW, some Level.LOW, none, none⟩

/-- Pin levels at the end of every loop iteration. -/
def steadyPins : PinsState :=
  ⟨none, some Level.LOW, some Level.LOW, some Level.HIGH, some Level.HIGH⟩

/-- Row bytes for a cycle in which exactly one button is read as
pressed: that button's bit is 0 in its row byte, all other bits of all
three bytes are 1. -/
def soloBits (b : Button) : Nat × Nat × Nat :=
  match btnRow b with
  | .AH => (bitClear 255 (btnPos b), 255, 255)
  | .IN => (255, bitClear 255 (btnPos b), 255)
  | .CMD => (255, 255, bitClear 255 (btnPos b))

/-- Bit-position table of the A-H row as stated in the specification:
position 0 holds H, 1 holds G, 2 holds F, 3 holds E, 4 holds D, 5 holds
C, 6 holds B, 7 holds A. Stated from the spec table for comparison with
the source constants; buttons of other rows are not in the table. -/
def ahClaimPos : Button → Nat
  | .H => 0
  | .G => 1
  | .F => 2
  | .E => 3
  | .D => 4
  | .C => 5
  | .B => 6
  | .A => 7
  | _ => 0

/-- Key-code mapping as stated in the specification: buttons A through N
map to their lowercase ASCII letters, RON to z, RIICHI to left-shift,
CHI to space, PON to left-alt, KAN to left-ctrl, ST to the digit 1, SEL
to the digit 5. Stated from the spec for comparison with the emitted
key codes. -/
def specKeyOf : Button → Nat
  | .A => 97
  | .B => 98
  | .C => 99
  | .D => 100
  | .E => 101
  | .F => 102
  | .G => 103
  | .H => 104
  | .I => 105
  | .J => 106
  | .K => 107
  | .L => 108
  | .M => 109
  | .N => 110
  | .RON => 122
  | .RIICHI => KEY_LEFT_SHIFT
  | .CHI => 32
  | .PON => KEY_LEFT_ALT
  | .KAN => KEY_LEFT_CTRL
  | .ST => 49
  | .SEL => 53

theorem readAHrow_val (d : Nat → Level) :
    (readAHrow d).1 = ahv (d 0) (d 1) (d 2) (d 3) (d 4) (d 5) (d 6) (d 7) := rfl

theorem readINrow_val (d : Nat → Level) :
    (readINrow d).1 = inv6 (d 0) (d 1) (d 2) (d 3) (d 4) (d 5) := rfl

theorem readCommandRow_val (d : Nat → Level) :
    (readCommandRow d).1 = cmdv (d 0) (d 1) (d 2) (d 3) (d 4) (d 5) (d 6) := rfl

theorem loopCycle_eq_fold (a i c : Nat) (s : LoopState) :
    loopCycle a i c s = loopCycleF a i c s := rfl

theorem pressFold_eq (a i c : Nat) (l : List Button) (s : LoopState) (out : List KEv) :
    pressFold a i c l (s, out) =
      ((l.filter (hit a i c)).foldl (fun _ x => (⟨keyChar x, true⟩ : LoopState)) s,
       out ++ (l.filter (hit a i c)).map (fun b => KEv.press (keyChar b))) := by
  induction l generalizing s out with
  | nil => simp [pressFold]
  | cons b rest ih =>
    cases hb : hit a i c b with
    | false => simp [pressFold, condPress, hb, ih, List.filter_cons]
    | true => simp [pressFold, condPress, keyboardButtonPress, hb, ih, List.filter_cons]

theorem foldl_press_struct (l : List Button) (s : LoopState) :
    l = [] ∨ ∃ b ∈ l, l.foldl (fun _ x => (⟨keyChar x, true⟩ : LoopState)) s = ⟨keyChar b, true⟩ := by
  induction l generalizing s with
  | nil => exact Or.inl rfl
  | cons b rest ih =>
    refine Or.inr ?_
    rcases ih (⟨keyChar b, true⟩ : LoopState) with h | ⟨b2, hb2, he⟩
    · subst h
      exact ⟨b, by simp, by simp⟩
    · exact ⟨b2, by simp [hb2], by simpa using he⟩

theorem keyChar_ne_zero (b : Button) : keyChar b ≠ 0 := by
  cases b <;> decide

theorem tailStep_of_pressed (p : LoopState × List KEv) (h : p.1.isButtonPressed = true) :
    tailStep p = (⟨p.1.lastPressedKey, false⟩, p.2 ++ [KEv.delay 80]) := by
  simp [tailStep, h]

theorem tailStep_of_quiet (p : LoopState × List KEv) (h1 : p.1.isButtonPressed = false)
    (h2 : p.1.lastPressedKey ≠ 0) :
    tailStep p = (⟨0, false⟩, p.2 ++ [KEv.releaseAll]) := by
  simp [tailStep, h1, h2]

theorem tailStep_clears_flag (p : LoopState × List KEv) :
    ((tailStep p).1).isButtonPressed = false := by
  by_cases h : p.1.isButtonPressed = true
  · simp [tailStep, h]
  · by_cases h2 : p.1.lastPressedKey ≠ 0 <;> simp [tailStep, h, h2]

theorem pressKeys_append (l1 l2 : List KEv) :
    pressKeys (l1 ++ l2) = pressKeys l1 ++ pressKeys l2 := by
  simp [pressKeys, List.filterMap_append]

theorem pressKeys_tailStep (p : LoopState × List KEv) :
    pressKeys (tailStep p).2 = pressKeys p.2 := by
  by_cases h : p.1.isButtonPressed = true
  · simp [tailStep, h, pressKeys_append, pressKeys]
  · by_cases h2 : p.1.lastPressedKey ≠ 0 <;>
      simp [tailStep, h, h2, pressKeys_append, pressKeys]

theorem pressKeys_map_press (l : List Button) :
    pressKeys (l.map (fun b => KEv.press (keyChar b))) = l.map keyChar := by
  induction l with
  | nil => rfl
  | cons b rest ih => simp [pressKeys, List.filterMap_cons] at ih ⊢; exact ih

theorem pressKeys_loopCycle (a i c : Nat) (s : LoopState) :
    pressKeys (loopCycle a i c s).2 = (decodeAll a i c).map keyChar := by
  rw [loopCycle_eq_fold]
  show pressKeys (tailStep (pressFold a i c checkOrder (s, []))).2 = _
  rw [pressKeys_tailStep, pressFold_eq]
  show pressKeys ([] ++ (checkOrder.filter (hit a i c)).map (fun b => KEv.press (keyChar b))) = _
  rw [List.nil_append, pressKeys_map_press]
  rfl

theorem loopCycle_fst_of_nonempty (a i c : Nat) (s : LoopState)
    (h : decodeAll a i c ≠ []) :
    ∃ b ∈ decodeAll a i c, (loopCycle a i c s).1 = ⟨keyChar b, false⟩ := by
  rcases foldl_press_struct (decodeAll a i c) s with he | ⟨b, hb, heq⟩
  · exact absurd he h
  · refine ⟨b, hb, ?_⟩
    rw [loopCycle_eq_fold]
    show (tailStep (pressFold a i c checkOrder (s, []))).1 = _
    rw [pressFold_eq]
    have hp : ((checkOrder.filter (hit a i c)).foldl
        (fun _ x => (⟨keyChar x, true⟩ : LoopState)) s) = ⟨keyChar b, true⟩ := heq
    rw [tailStep_of_pressed _ (by simp [hp])]
    simp [hp]

theorem loopCycle_empty_release (s : LoopState) (h1 : s.isButtonPressed = false)
    (h2 : s.lastPressedKey ≠ 0) :
    loopCycle 255 255 255 s = (⟨0, false⟩, [KEv.releaseAll]) := by
  have hp : loopCycle 255 255 255 s = tailStep (s, []) := rfl
  rw [hp, tailStep_of_quiet (s, []) h1 h2]
  rfl

theorem okTrace_append (l1 l2 : List (Pin × Level)) (p : PinsState) :
    okTrace p (l1 ++ l2) = (okTrace p l1 && okTrace (l1.foldl applyWrite p) l2) := by
  induction l1 generalizing p with
  | nil => simp [okTrace]
  | cons w ws ih => simp [okTrace, ih, Bool.and_assoc]

theorem writesOf_readAHrow (d : Nat → Level) :
    writesOf (readAHrow d).2 = rowWrites Level.LOW Level.HIGH := by
  simp only [readAHrow, writesOf, List.filterMap_append, List.filterMap_cons,
    List.filterMap_nil, List.nil_append, List.cons_append, List.singleton_append,
    List.append_nil, rowWrites, clockPulses]

theorem writesOf_readINrow (d : Nat → Level) :
    writesOf (readINrow d).2 = rowWrites Level.HIGH Level.LOW := by
  simp only [readINrow, writesOf, List.filterMap_append, List.filterMap_cons,
    List.filterMap_nil, List.nil_append, List.cons_append, List.singleton_append,
    List.append_nil, rowWrites, clockPulses]

theorem writesOf_readCommandRow (d : Nat → Level) :
    writesOf (readCommandRow d).2 = rowWrites Level.HIGH Level.HIGH := by
  simp only [readCommandRow, writesOf, List.filterMap_append, List.filterMap_cons,
    List.filterMap_nil, List.nil_append, List.cons_append, List.singleton_append,
    List.append_nil, rowWrites, clockPulses]

theorem cycleWrites_concrete (d1 d2 d3 : Nat → Level) :
    cycleWrites d1 d2 d3 =
      rowWrites Level.LOW Level.HIGH ++ rowWrites Level.HIGH Level.LOW ++
        rowWrites Level.HIGH Level.HIGH := by
  show writesOf (readAHrow d1).2 ++ writesOf (readINrow d2).2 ++
      writesOf (readCommandRow d3).2 = _
  rw [writesOf_readAHrow, writesOf_readINrow, writesOf_readCommandRow]

theorem ahv_testBit (b0 b1 b2 b3 b4 b5 b6 b7 : Level) :
    ((ahv b0 b1 b2 b3 b4 b5 b6 b7).testBit 0 = false ↔ b0 = Level.LOW)
  ∧ ((ahv b0 b1 b2 b3 b4 b5 b6 b7).testBit 1 = false ↔ b1 = Level.LOW)
  ∧ ((ahv b0 b1 b2 b3 b4 b5 b6 b7).testBit 2 = false ↔ b2 = Level.LOW)
  ∧ ((ahv b0 b1 b2 b3 b4 b5 b6 b7).testBit 3 = false ↔ b3 = Level.LOW)
  ∧ ((ahv b0 b1 b2 b3 b4 b5 b6 b7).testBit 4 = false ↔ b4 = Level.LOW)
  ∧ ((ahv b0 b1 b2 b3 b4 b5 b6 b7).testBit 5 = false ↔ b5 = Level.LOW)
  ∧ ((ahv b0 b1 b2 b3 b4 b5 b6 b7).testBit 6 = false ↔ b6 = Level.LOW)
  ∧ ((ahv b0 b1 b2 b3 b4 b5 b6 b7).testBit 7 = false ↔ b7 = Level.LOW) := by
  revert b0 b1 b2 b3 b4 b5 b6 b7
  decide

theorem inv6_unused (b0 b1 b2 b3 b4 b5 : Level) :
    (inv6 b0 b1 b2 b3 b4 b5).testBit 0 = true
  ∧ (inv6 b0 b1 b2 b3 b4 b5).testBit 1 = true := by
  revert b0 b1 b2 b3 b4 b5
  decide

theorem cmdv_unused (b0 b1 b2 b3 b4 b5 b6 : Level) :
    (cmdv b0 b1 b2 b3 b4 b5 b6).testBit 0 = true := by
  revert b0 b1 b2 b3 b4 b5 b6
  decide

theorem loopCycle_solo (b : Button) (s : LoopState) :
    loopCycle (soloBits b).1 (soloBits b).2.1 (soloBits b).2.2 s
      = (⟨keyChar b, false⟩, [KEv.press (keyChar b), KEv.delay 80]) := by
  cases b <;> rfl

theorem runCycles_cons (x : Nat × Nat × Nat) (rest : List (Nat × Nat × Nat)) (s : LoopState) :
    runCycles (x :: rest) s
      = ((runCycles rest (loopCycle x.1 x.2.1 x.2.2 s).1).1,
         (loopCycle x.1 x.2.1 x.2.2 s).2 ++ (runCycles rest (loopCycle x.1 x.2.1 x.2.2 s).1).2) := rfl

theorem countRel_append (l1 l2 : List KEv) :
    countRel (l1 ++ l2) = countRel l1 + countRel l2 := by
  simp [countRel, List.count_append]

theorem run_held_aux (x : Nat × Nat × Nat) (k : Nat) (hk : k ≠ 0)
    (hx : ∀ s : LoopState, loopCycle x.1 x.2.1 x.2.2 s
      = (⟨k, false⟩, [KEv.press k, KEv.delay 80])) (n : Nat) :
    pressKeys (runCycles (List.replicate n x ++ [(255, 255, 255)]) ⟨k, false⟩).2
        = List.replicate n k
  ∧ countRel (runCycles (List.replicate n x ++ [(255, 255, 255)]) ⟨k, false⟩).2 = 1
  ∧ (runCycles (List.replicate n x ++ [(255, 255, 255)]) ⟨k, false⟩).1 = ⟨0, false⟩ := by
  induction n with
  | zero =>
    have h1 : loopCycle 255 255 255 (⟨k, false⟩ : LoopState)
        = (⟨0, false⟩, [KEv.releaseAll]) :=
      loopCycle_empty_release _ rfl hk
    have h2 : runCycles (List.replicate 0 x ++ [(255, 255, 255)]) (⟨k, false⟩ : LoopState)
        = (⟨0, false⟩, [KEv.releaseAll]) := by
      show ((runCycles [] (loopCycle 255 255 255 ⟨k, false⟩).1).1,
            (loopCycle 255 255 255 ⟨k, false⟩).2 ++
              (runCycles [] (loopCycle 255 255 255 ⟨k, false⟩).1).2) = _
      rw [h1]
      rfl
    rw [h2]
    refine ⟨rfl, by decide, rfl⟩
  | succ n ih =>
    have h2 : runCycles (List.replicate (n + 1) x ++ [(255, 255, 255)]) (⟨k, false⟩ : LoopState)
        = ((runCycles (List.replicate n x ++ [(255, 255, 255)]) (⟨k, false⟩ : LoopState)).1,
           [KEv.press k, KEv.delay 80] ++
             (runCycles (List.replicate n x ++ [(255, 255, 255)]) (⟨k, false⟩ : LoopState)).2) := by
      rw [List.replicate_succ, List.cons_append, runCycles_cons, hx]
    rw [h2]
    refine ⟨?_, ?_, ih.2.2⟩
    · show pressKeys ([KEv.press k, KEv.delay 80] ++ _) = _
      rw [pressKeys_append, ih.1, List.replicate_succ]
      rfl
    · show countRel ([KEv.press k, KEv.delay 80] ++ _) = _
      rw [countRel_append, ih.2.1]
      rfl

theorem run_solo (b : Button) (n : Nat) :
    pressKeys (runCycles (List.replicate n (soloBits b) ++ [(255, 255, 255)]) ⟨keyChar b, false⟩).2
        = List.replicate n (keyChar b)
  ∧ countRel (runCycles (List.replicate n (soloBits b) ++ [(255, 255, 255)]) ⟨keyChar b, false⟩).2
        = 1
  ∧ (runCycles (List.replicate n (soloBits b) ++ [(255, 255, 255)]) ⟨keyChar b, false⟩).1
      = ⟨0, false⟩ :=
  run_held_aux (soloBits b) (keyChar b) (keyChar_ne_zero b) (loopCycle_solo b) n

theorem readsOf_readAHrow (d : Nat → Level) :
    readsOf (readAHrow d).2 = [d 0, d 1, d 2, d 3, d 4, d 5, d 6, d 7] := by
  simp only [readAHrow, readsOf, List.filterMap_append, List.filterMap_cons,
    List.filterMap_nil, List.nil_append, List.cons_append, List.singleton_append,
    List.append_nil]

theorem readsOf_readINrow (d : Nat → Level) :
    readsOf (readINrow d).2 = [d 0, d 1, d 2, d 3, d 4, d 5] := by
  simp only [readINrow, readsOf, List.filterMap_append, List.filterMap_cons,
    List.filterMap_nil, List.nil_append, List.cons_append, List.singleton_append,
    List.append_nil]

theorem readsOf_readCommandRow (d : Nat → Level) :
    readsOf (readCommandRow d).2 = [d 0, d 1, d 2, d 3, d 4, d 5, d 6] := by
  simp only [readCommandRow, readsOf, List.filterMap_append, List.filterMap_cons,
    List.filterMap_nil, List.nil_append, List.cons_append, List.singleton_append,
    List.append_nil]

/-- C1 counterexample: with the same non-empty snapshot (only H pressed,
A-H byte 0xFE) in two consecutive cycles, the second cycle again calls
the transport press with key h (104): the pressed result of the second
call is not empty, contradicting the claim. -/
theorem c1_counterexample :
    pressKeys (loopCycle 254 255 255 ((loopCycle 254 255 255 initState).1)).2 = [104]
  ∧ pressKeys (loopCycle 254 255 255 ((loopCycle 254 255 255 initState).1)).2 ≠ [] := by
  decide

/-- C1 amended: advancing twice with the identical snapshot yields the
same pressed result both times — one transport press call per snapshot
button in every cycle, so a held button produces a repeated press call
each cycle (the firmware keeps no active set; de-duplication is left to
the keyboard transport); for a non-empty snapshot the second pressed
result is non-empty. -/
theorem c1_amended_held_repress (a i c : Nat) (s : LoopState) :
    pressKeys (loopCycle a i c ((loopCycle a i c s).1)).2 = pressKeys (loopCycle a i c s).2
  ∧ (decodeAll a i c ≠ [] →
      pressKeys (loopCycle a i c ((loopCycle a i c s).1)).2 ≠ []) := by
  constructor
  · rw [pressKeys_loopCycle, pressKeys_loopCycle]
  · intro h
    rw [pressKeys_loopCycle]
    intro hm
    exact h (List.map_eq_nil_iff.mp hm)

/-- C1 witness: the amended theorem applied at the concrete snapshot with
only H pressed. -/
theorem c1_witness :
    pressKeys (loopCycle 254 255 255 ((loopCycle 254 255 255 initState).1)).2 ≠ [] :=
  (c1_amended_held_repress 254 255 255 initState).2 (by decide)

/-- C2 counterexample: holding button H for N = 2 polling cycles then
releasing produces two press calls (key 104 in each held cycle), not
exactly one, while the release-all is emitted exactly once. -/
theorem c2_counterexample :
    pressKeys (runCycles [(254, 255, 255), (254, 255, 255), (255, 255, 255)] initState).2
        = [104, 104]
  ∧ (pressKeys (runCycles [(254, 255, 255), (254, 255, 255), (255, 255, 255)] initState).2).length ≠ 1
  ∧ countRel (runCycles [(254, 255, 255), (254, 255, 255), (255, 255, 255)] initState).2 = 1 := by
  decide

/-- C2 amended: for every single button b held for N consecutive polling
cycles and then released, the program emits exactly one press call for b
per held cycle (N in total, all with b's key code) and exactly one
release-all, independent of N beyond the press count. -/
theorem c2_amended_press_per_cycle (b : Button) (n : Nat) (hn : 1 ≤ n) :
    pressKeys (runCycles (List.replicate n (soloBits b) ++ [(255, 255, 255)]) initState).2
        = List.replicate n (keyChar b)
  ∧ countRel (runCycles (List.replicate n (soloBits b) ++ [(255, 255, 255)]) initState).2 = 1 := by
  obtain ⟨m, rfl⟩ : ∃ m, n = m + 1 := ⟨n - 1, (Nat.succ_pred_eq_of_pos hn).symm⟩
  have hs : ∀ s : LoopState, loopCycle (soloBits b).1 (soloBits b).2.1 (soloBits b).2.2 s
      = (⟨keyChar b, false⟩, [KEv.press (keyChar b), KEv.delay 80]) := loopCycle_solo b
  have ih := run_solo b m
  have h2 : runCycles (List.replicate (m + 1) (soloBits b) ++ [(255, 255, 255)]) initState
      = ((runCycles (List.replicate m (soloBits b) ++ [(255, 255, 255)])
            (⟨keyChar b, false⟩ : LoopState)).1,
         [KEv.press (keyChar b), KEv.delay 80] ++
           (runCycles (List.replicate m (soloBits b) ++ [(255, 255, 255)])
             (⟨keyChar b, false⟩ : LoopState)).2) := by
    rw [List.replicate_succ, List.cons_append, runCycles_cons, hs]
  rw [h2]
  constructor
  · show pressKeys ([KEv.press (keyChar b), KEv.delay 80] ++ _) = _
    rw [pressKeys_append, ih.1, List.replicate_succ]
    rfl
  · show countRel ([KEv.press (keyChar b), KEv.delay 80] ++ _) = _
    rw [countRel_append, ih.2.1]
    rfl

/-- C2 witness: the amended theorem applied at button H held for one
cycle. -/
theorem c2_witness :
    pressKeys (runCycles (List.replicate 1 (soloBits Button.H) ++ [(255, 255, 255)]) initState).2
        = List.replicate 1 (keyChar Button.H)
  ∧ countRel (runCycles (List.replicate 1 (soloBits Button.H) ++ [(255, 255, 255)]) initState).2
      = 1 :=
  c2_amended_press_per_cycle Button.H 1 (Nat.le_refl 1)

/-- C3 counterexample: readINrow performs 6 data-line reads, not 8: the
reads at the unused bit positions 0 and 1 are skipped, not performed and
discarded. -/
theorem c3_counterexample :
    (readsOf (readINrow (fun _ => Level.HIGH)).2).length = 6
  ∧ (readsOf (readINrow (fun _ => Level.HIGH)).2).length ≠ 8 := by
  rw [readsOf_readINrow]
  exact ⟨rfl, by decide⟩

/-- C3 amended: all three row reads perform the identical
select-latch-clock write sequence — latch pulse then 7 clock pulses,
positions without buttons still clocked, only the select levels differ —
but the data-line reads at unused positions are skipped rather than
performed and discarded: readAHrow samples 8 times, readINrow 6 times,
readCommandRow 7 times. -/
theorem c3_amended_uniform_clocking (d1 d2 d3 : Nat → Level) :
    writesOf (readAHrow d1).2 = rowWrites Level.LOW Level.HIGH
  ∧ writesOf (readINrow d2).2 = rowWrites Level.HIGH Level.LOW
  ∧ writesOf (readCommandRow d3).2 = rowWrites Level.HIGH Level.HIGH
  ∧ readsOf (readAHrow d1).2 = [d1 0, d1 1, d1 2, d1 3, d1 4, d1 5, d1 6, d1 7]
  ∧ readsOf (readINrow d2).2 = [d2 0, d2 1, d2 2, d2 3, d2 4, d2 5]
  ∧ readsOf (readCommandRow d3).2 = [d3 0, d3 1, d3 2, d3 3, d3 4, d3 5, d3 6] :=
  ⟨writesOf_readAHrow d1, writesOf_readINrow d2, writesOf_readCommandRow d3,
   readsOf_readAHrow d1, readsOf_readINrow d2, readsOf_readCommandRow d3⟩

set_option maxRecDepth 4000 in
/-- C4: decoding the A-H row byte yields exactly the buttons whose
spec-table position (0=H .. 7=A) holds bit value 0, and the I-N and
command row decode results are independent of the bits at their unused
positions: writing an I-N byte as 4 * m + u (u the two unused low bits)
or a command byte as 2 * m + u (u the unused low bit), the decode result
does not depend on u. -/
theorem c4_decode_table :
    (∀ bits : Nat, bits < 256 →
        decodeAH bits = ahOrder.filter (fun b => !bits.testBit (ahClaimPos b)))
  ∧ (∀ m : Nat, m < 64 → ∀ u1 : Nat, u1 < 4 → ∀ u2 : Nat, u2 < 4 →
        decodeIN (4 * m + u1) = decodeIN (4 * m + u2))
  ∧ (∀ m : Nat, m < 128 → ∀ u1 : Nat, u1 < 2 → ∀ u2 : Nat, u2 < 2 →
        decodeCMD (2 * m + u1) = decodeCMD (2 * m + u2)) := by
  refine ⟨by decide, by decide, by decide⟩

/-- C4 witness: the theorem applied at the bytes 254 (A-H row) and 0
versus 3 (I-N row, differing only in the unused bits). -/
theorem c4_witness :
    decodeAH 254 = ahOrder.filter (fun b => !(254 : Nat).testBit (ahClaimPos b))
  ∧ decodeIN (4 * 0 + 0) = decodeIN (4 * 0 + 3) :=
  ⟨c4_decode_table.1 254 (by decide),
   c4_decode_table.2.1 0 (by decide) 0 (by decide) 3 (by decide)⟩

/-- C5: after a cycle with a non-empty snapshot, one cycle with an empty
snapshot emits exactly one release-all event (which releases the whole
held set at the transport) and nothing else, and afterwards the
persistent state records no pressed key. -/
theorem c5_release_completeness (a i c : Nat) (s : LoopState)
    (h : decodeAll a i c ≠ []) :
    loopCycle 255 255 255 ((loopCycle a i c s).1) = (⟨0, false⟩, [KEv.releaseAll])
  ∧ ((loopCycle 255 255 255 ((loopCycle a i c s).1)).1).lastPressedKey = 0 := by
  obtain ⟨b, _, h1⟩ := loopCycle_fst_of_nonempty a i c s h
  have h2 : loopCycle 255 255 255 ((loopCycle a i c s).1) = (⟨0, false⟩, [KEv.releaseAll]) := by
    rw [h1]
    exact loopCycle_empty_release _ rfl (keyChar_ne_zero b)
  exact ⟨h2, by rw [h2]⟩

/-- C5 witness: the theorem applied at the snapshot with only H pressed
from the initial state. -/
theorem c5_witness :
    loopCycle 255 255 255 ((loopCycle 254 255 255 initState).1) = (⟨0, false⟩, [KEv.releaseAll])
  ∧ ((loopCycle 255 255 255 ((loopCycle 254 255 255 initState).1)).1).lastPressedKey = 0 :=
  c5_release_completeness 254 255 255 initState (by decide)

/-- C6: every key code passed to the transport is the spec-table code of
the corresponding decoded button: the press calls of one cycle are
exactly the snapshot buttons mapped through the fixed key table
(A..N to lowercase letters, RON to z, RIICHI to left-shift, CHI to
space, PON to left-alt, KAN to left-ctrl, ST to 1, SEL to 5). -/
theorem c6_key_mapping (a i c : Nat) (s : LoopState) :
    pressKeys (loopCycle a i c s).2 = (decodeAll a i c).map specKeyOf := by
  rw [pressKeys_loopCycle]
  have h : keyChar = specKeyOf := by
    funext b
    cases b <;> rfl
  rw [h]

/-- C7: readAHrow performs exactly the trace of one latch pulse, an
immediate read (sample 0), then seven clock pulses each followed by a
read (samples 1..7); and bit i of the returned byte is 0 exactly when
sample i read LOW. -/
theorem c7_bit_order (d : Nat → Level) :
    (readAHrow d).2 = [Ev.write Pin.nesAH Level.LOW, Ev.write Pin.nesIN Level.HIGH,
      Ev.write Pin.nesLatch Level.HIGH, Ev.write Pin.nesLatch Level.LOW,
      Ev.readData (d 0),
      Ev.write Pin.nesClock Level.HIGH, Ev.write Pin.nesClock Level.LOW, Ev.readData (d 1),
      Ev.write Pin.nesClock Level.HIGH, Ev.write Pin.nesClock Level.LOW, Ev.readData (d 2),
      Ev.write Pin.nesClock Level.HIGH, Ev.write Pin.nesClock Level.LOW, Ev.readData (d 3),
      Ev.write Pin.nesClock Level.HIGH, Ev.write Pin.nesClock Level.LOW, Ev.readData (d 4),
      Ev.write Pin.nesClock Level.HIGH, Ev.write Pin.nesClock Level.LOW, Ev.readData (d 5),
      Ev.write Pin.nesClock Level.HIGH, Ev.write Pin.nesClock Level.LOW, Ev.readData (d 6),
      Ev.write Pin.nesClock Level.HIGH, Ev.write Pin.nesClock Level.LOW, Ev.readData (d 7)]
  ∧ ∀ i : Nat, i < 8 → ((readAHrow d).1.testBit i = false ↔ d i = Level.LOW) := by
  constructor
  · simp only [readAHrow, List.nil_append, List.cons_append, List.singleton_append,
      List.append_nil]
  · intro i hi
    rw [readAHrow_val]
    obtain ⟨h0, h1, h2, h3, h4, h5, h6, h7⟩ :=
      ahv_testBit (d 0) (d 1) (d 2) (d 3) (d 4) (d 5) (d 6) (d 7)
    interval_cases i <;> assumption

/-- C7 witness: the theorem applied at the all-LOW data stream and bit
position 0. -/
theorem c7_witness : (readAHrow (fun _ => Level.LOW)).1.testBit 0 = false :=
  ((c7_bit_order (fun _ => Level.LOW)).2 0 (by decide)).mpr rfl

/-- C8: starting from unwritten pin levels, after setup and any number of
polling cycles (with arbitrary data-line levels), at no point of the
write sequence are both select lines last written LOW: the fourth
selector combination is never produced. -/
theorem c8_select_invariant
    (ds : Nat → (Nat → Level) × (Nat → Level) × (Nat → Level)) (n : Nat) :
    okSel initPins = true ∧ okTrace initPins (progWrites ds n) = true := by
  refine ⟨rfl, ?_⟩
  have key : ∀ m, okTrace initPins (progWrites ds m) = true ∧
      ((progWrites ds m).foldl applyWrite initPins = postSetupPins ∨
       (progWrites ds m).foldl applyWrite initPins = steadyPins) := by
    intro m
    induction m with
    | zero =>
      constructor
      · show okTrace initPins setupWrites = true
        decide
      · refine Or.inl ?_
        show List.foldl applyWrite initPins setupWrites = postSetupPins
        decide
    | succ m ih =>
      have hcw := cycleWrites_concrete (ds m).1 (ds m).2.1 (ds m).2.2
      have happ : progWrites ds (m + 1)
          = progWrites ds m ++ cycleWrites (ds m).1 (ds m).2.1 (ds m).2.2 := rfl
      constructor
      · rw [happ, okTrace_append, ih.1, hcw, Bool.true_and]
        rcases ih.2 with h | h <;> rw [h] <;> decide
      · rw [happ, List.foldl_append, hcw]
        rcases ih.2 with h | h <;> rw [h]
        · exact Or.inr (by decide)
        · exact Or.inr (by decide)
  exact (key n).1

/-- C9: a release-all is sent only when lastPressedKey is non-zero and
resets it to 0; every cycle ends with isButtonPressed cleared; and from
the post-release state, any number of further empty-snapshot cycles
performs no keyboard-transport call at all. -/
theorem c9_release_once :
    (∀ s : LoopState, s.isButtonPressed = false → s.lastPressedKey ≠ 0 →
        loopCycle 255 255 255 s = (⟨0, false⟩, [KEv.releaseAll]))
  ∧ (∀ (a i c : Nat) (s : LoopState), ((loopCycle a i c s).1).isButtonPressed = false)
  ∧ (∀ n : Nat, runCycles (List.replicate n (255, 255, 255)) ⟨0, false⟩ = (⟨0, false⟩, [])) := by
  refine ⟨loopCycle_empty_release, ?_, ?_⟩
  · intro a i c s
    rw [loopCycle_eq_fold]
    exact tailStep_clears_flag _
  · intro n
    induction n with
    | zero => rfl
    | succ n ih =>
      have h0 : loopCycle 255 255 255 (⟨0, false⟩ : LoopState) = (⟨0, false⟩, []) := rfl
      simp only [List.replicate_succ, runCycles, h0, ih, List.nil_append]

/-- C9 witness: the first part of the theorem applied at the state that
recorded key 104 (h) as last pressed. -/
theorem c9_witness :
    loopCycle 255 255 255 (⟨104, false⟩ : LoopState) = (⟨0, false⟩, [KEv.releaseAll]) :=
  c9_release_once.1 ⟨104, false⟩ rfl (by decide)

/-- C10: for every data-line stream, the byte returned by readINrow has
bits 0 and 1 equal to 1 and the byte returned by readCommandRow has bit
0 equal to 1: the unused positions always read as not-pressed. -/
theorem c10_unused_bits_high (d dc : Nat → Level) :
    (readINrow d).1.testBit 0 = true
  ∧ (readINrow d).1.testBit 1 = true
  ∧ (readCommandRow dc).1.testBit 0 = true := by
  refine ⟨?_, ?_, ?_⟩
  · rw [readINrow_val]
    exact (inv6_unused (d 0) (d 1) (d 2) (d 3) (d 4) (d 5)).1
  · rw [readINrow_val]
    exact (inv6_unused (d 0) (d 1) (d 2) (d 3) (d 4) (d 5)).2
  · rw [readCommandRow_val]
    exact cmdv_unused (dc 0) (dc 1) (dc 2) (dc 3) (dc 4) (dc 5) (dc 6)

end JMJ
